import Mathlib

/-!
Verification of the design-pattern examples (iterator, observer,
singleton, decorator) as a shallow embedding of the Python source.
-/

namespace DesignPatterns

/-! ### Iterator pattern (`iterator_pattern.py`)

`MyCollection.__iter__` hands `MyIterator` the collection's `_items`
list itself, with no copy: the iterator and the collection alias one
list.  We therefore model the shared list once (in `MyCollection`) and
the iterator carries only its `_index`; `MyIterator.next` reads the
collection's current `_items` on every call, exactly as the aliased
Python list does. -/

structure MyCollection (α : Type) where
  _items : List α
deriving DecidableEq

def MyCollection.add_item {α : Type} (c : MyCollection α) (x : α) : MyCollection α :=
  ⟨c._items ++ [x]⟩

structure MyIterator where
  _index : Nat
deriving DecidableEq

/-- `__iter__`: a fresh cursor starts at index 0. -/
def MyCollection.iter {α : Type} (_c : MyCollection α) : MyIterator := ⟨0⟩

/-- `__next__`: if `_index < len(_items)` return the item at `_index`
and advance; otherwise raise `StopIteration` (modelled as `none`,
leaving the iterator unchanged). -/
def MyIterator.next {α : Type} (c : MyCollection α) (it : MyIterator) :
    Option (α × MyIterator) :=
  if h : it._index < c._items.length then
    some (c._items.get ⟨it._index, h⟩, ⟨it._index + 1⟩)
  else
    none

/-- Run `__next__` up to `fuel` times over an unmodified collection,
collecting the produced items, stopping at `StopIteration`. -/
def MyIterator.collect {α : Type} (c : MyCollection α) (it : MyIterator) :
    Nat → List α
  | 0 => []
  | fuel + 1 =>
    match MyIterator.next c it with
    | some (a, it2) => a :: MyIterator.collect c it2 fuel
    | none => []

/-- Building a collection by successive `add_item` calls. -/
def MyCollection.ofList {α : Type} (l : List α) : MyCollection α :=
  List.foldl MyCollection.add_item ⟨[]⟩ l

/-! ### Observer pattern (`observer_pattern.py`)

`Subject` keeps a list `_observers` and a state `_state` (initially
`None`, hence `Option S`).  `attach` appends; `detach` is Python's
`list.remove`, which deletes the first occurrence and raises
`ValueError` when the value is absent (modelled as `none`, the list
untouched).  The `state` setter stores the new value and then calls
`_notify`, which calls `observer.update(self._state)` on each observer
in list order; we record those calls as a list of
(observer, state-passed) events. -/

structure Subject (O S : Type) where
  _observers : List O
  _state : Option S
deriving DecidableEq

/-- `Subject.__init__`. -/
def Subject.init (O S : Type) : Subject O S := ⟨[], none⟩

def Subject.attach {O S : Type} (s : Subject O S) (o : O) : Subject O S :=
  { s with _observers := s._observers ++ [o] }

/-- Python `list.remove`: drop the first element equal to `o`, or fail
(`ValueError`) when none is. -/
def removeFirst {O : Type} [DecidableEq O] : List O → O → Option (List O)
  | [], _ => none
  | x :: xs, o =>
    if x = o then some xs
    else Option.map (fun ys => x :: ys) (removeFirst xs o)

def Subject.detach {O S : Type} [DecidableEq O] (s : Subject O S) (o : O) :
    Option (Subject O S) :=
  Option.map (fun ys => { s with _observers := ys }) (removeFirst s._observers o)

/-- `_notify`: the sequence of `update` calls it makes, in list order,
each passing the subject's current `_state`. -/
def Subject.notifyEvents {O S : Type} (s : Subject O S) : List (O × Option S) :=
  s._observers.map (fun o => (o, s._state))

/-- The `state` setter: store the new value, then `_notify`.  Returns
the updated subject together with the notification events. -/
def Subject.set_state {O S : Type} (s : Subject O S) (v : S) :
    Subject O S × List (O × Option S) :=
  let s2 : Subject O S := { s with _state := some v }
  (s2, Subject.notifyEvents s2)

/-- `attach` the same observer `k` times in a row. -/
def Subject.attachN {O S : Type} (s : Subject O S) (o : O) : Nat → Subject O S
  | 0 => s
  | k + 1 => Subject.attach (Subject.attachN s o k) o

/-! ### Singleton pattern (`singleton_pattern.py`)

`Singleton.__new__` allocates a fresh object with `value = 0` only when
the class attribute `_instance` is `None`, and otherwise returns the
already stored reference.  To speak about identity we model a heap of
allocated singleton objects addressed by `Nat`: `heap` maps each
address to that object's `value` field, and `_instance` holds the
stored address, if any.  Construction returns an address (a reference);
two references are "the identical instance" when they are equal
addresses. -/

structure PyHeap where
  heap : List Int
  _instance : Option Nat
deriving DecidableEq

/-- `Singleton()` — `__new__`: reuse the stored instance, or allocate a
new object whose `value` field starts at 0 and store its address. -/
def Singleton.new (s : PyHeap) : Nat × PyHeap :=
  match s._instance with
  | some a => (a, s)
  | none => (s.heap.length, ⟨s.heap ++ [0], some s.heap.length⟩)

/-- Reading `ref.value` through the reference `a`. -/
def PyHeap.value (s : PyHeap) (a : Nat) : Int :=
  s.heap.getD a 0

/-- `Singleton.increment`: `self.value += 1` through the reference `a`. -/
def Singleton.increment (s : PyHeap) (a : Nat) : PyHeap :=
  ⟨s.heap.set a (s.heap.getD a 0 + 1), s._instance⟩

/-- A heap is well-formed when the stored instance address, if any, is
an allocated one. -/
def PyHeap.WF (s : PyHeap) : Prop :=
  ∀ a, s._instance = some a → a < s.heap.length

/-! ### Decorator pattern (`decorator_pattern.py`)

An effectful Python function is modelled as `α → List String × β`: the
lines it prints, in order, and its return value.  `greet` prints
`"Hello!"` before delegating; `farewell` delegates, prints
`"Goodbye!"`, and returns the delegate's result. -/

def greet {α β : Type} (func : α → List String × β) : α → List String × β :=
  fun a =>
    let r := func a
    ("Hello!" :: r.1, r.2)

def farewell {α β : Type} (func : α → List String × β) : α → List String × β :=
  fun a =>
    let r := func a
    (r.1 ++ ["Goodbye!"], r.2)

/-- The undecorated body of `say_name`. -/
def say_name_body (name : String) : List String × Unit :=
  (["My name is " ++ name ++ "."], ())

/-- `say_name` as defined, with `@greet` above `@farewell`. -/
def say_name : String → List String × Unit :=
  greet (farewell say_name_body)

/-- The undecorated body of `add_numbers`. -/
def add_numbers_body (p : Int × Int) : List String × Int :=
  ([], p.1 + p.2)

/-- `add_numbers` as defined, decorated with `@greet` only. -/
def add_numbers : Int × Int → List String × Int :=
  greet add_numbers_body

theorem MyCollection.foldl_add_item {α : Type} (l acc : List α) :
    (List.foldl MyCollection.add_item ⟨acc⟩ l) = ⟨acc ++ l⟩ := by
  induction l generalizing acc with
  | nil => simp
  | cons x xs ih =>
      simp only [List.foldl_cons, MyCollection.add_item, ih, List.append_assoc,
        List.singleton_append]

theorem MyCollection.ofList_eq {α : Type} (l : List α) :
    MyCollection.ofList l = ⟨l⟩ := by
  simp [MyCollection.ofList, MyCollection.foldl_add_item]

theorem MyIterator.collect_eq_take_drop {α : Type} (l : List α) (fuel i : Nat) :
    MyIterator.collect ⟨l⟩ ⟨i⟩ fuel = (l.drop i).take fuel := by
  induction fuel generalizing i with
  | zero => simp [MyIterator.collect]
  | succ k ih =>
      by_cases h : i < l.length
      · rw [MyIterator.collect, MyIterator.next]
        simp only [h, dite_true]
        rw [ih (i + 1), List.drop_eq_getElem_cons h, List.take_succ_cons]
        simp [List.get_eq_getElem]
      · rw [MyIterator.collect, MyIterator.next]
        simp only [h, dite_false]
        rw [List.drop_eq_nil_of_le (Nat.le_of_not_lt h)]
        simp

theorem removeFirst_eq {O : Type} [DecidableEq O] (l : List O) (o : O) :
    removeFirst l o = if o ∈ l then some (l.erase o) else none := by
  induction l with
  | nil => simp [removeFirst]
  | cons x xs ih =>
      by_cases hx : x = o
      · subst hx
        simp [removeFirst, List.erase_cons_head]
      · rw [removeFirst]
        simp only [hx, if_false, ih]
        by_cases hm : o ∈ xs
        · simp [hm, hx, List.erase_cons_tail, Ne.symm hx]
        · simp [hm, hx, Ne.symm hx]

theorem count_map_pair {O S : Type} [DecidableEq O] [DecidableEq S]
    (l : List O) (o : O) (v : Option S) :
    (l.map (fun x => (x, v))).count (o, v) = l.count o := by
  induction l with
  | nil => rfl
  | cons x xs ih =>
      simp only [List.map_cons, List.count_cons, ih, Prod.mk.injEq,
        beq_iff_eq, and_true]

theorem Subject.attachN_observers {O S : Type} (s : Subject O S) (o : O)
    (k : Nat) :
    (Subject.attachN s o k)._observers = s._observers ++ List.replicate k o := by
  induction k with
  | zero => simp [Subject.attachN]
  | succ n ih =>
      rw [Subject.attachN, Subject.attach, ih, List.replicate_succ']
      simp

theorem List.getD_set_self (l : List Int) (a : Nat) (x d : Int)
    (h : a < l.length) : (l.set a x).getD a d = x := by
  induction l generalizing a with
  | nil => cases h
  | cons y ys ih =>
      cases a with
      | zero => rfl
      | succ n =>
          simp only [List.set_cons_succ, List.getD_cons_succ]
          exact ih n (Nat.lt_of_succ_lt_succ h)

theorem List.getD_append_length (l : List Int) (x d : Int) :
    (l ++ [x]).getD l.length d = x := by
  induction l with
  | nil => rfl
  | cons y ys ih => simp [ih]

theorem Singleton.new_of_some (s : PyHeap) (a : Nat)
    (h : s._instance = some a) : Singleton.new s = (a, s) := by
  simp [Singleton.new, h]

theorem Singleton.new_instance_eq (s : PyHeap) :
    (Singleton.new s).2._instance = some (Singleton.new s).1 := by
  rcases h : s._instance with _ | a <;> simp [Singleton.new, h]

theorem Singleton.new_addr_lt (s : PyHeap) (hwf : PyHeap.WF s) :
    (Singleton.new s).1 < (Singleton.new s).2.heap.length := by
  rcases h : s._instance with _ | a
  · simp [Singleton.new, h]
  · simpa [Singleton.new, h] using hwf a h

/-- Claim C1 counterexample.  The claim says items appended after the
cursor's creation do not affect the cursor's observable behavior.
Concretely: over the empty collection a cursor is created, then `"X"`
is appended; the claim predicts the cursor's next production still
signals exhaustion (as it does over the creation-time contents), but
since `__iter__` passed the collection's `_items` list itself, the
cursor actually produces `"X"`. -/
theorem iterator_snapshot_counterexample :
    ¬ (MyIterator.next (MyCollection.add_item (⟨[]⟩ : MyCollection String) "X")
          (MyCollection.iter (⟨[]⟩ : MyCollection String))
        = MyIterator.next (⟨[]⟩ : MyCollection String)
            (MyCollection.iter (⟨[]⟩ : MyCollection String))) := by
  decide

/-- Claim C1, amended: a cursor has its own position, but the cursor
and the collection alias one item list, so appends made after the
cursor's creation are visible to it: a cursor whose index sits at the
old end (where it signalled exhaustion) produces the newly appended
item on the next call. -/
theorem iterator_append_visible {α : Type} (l : List α) (x : α) (i : Nat)
    (h : i = l.length) :
    MyIterator.next (⟨l⟩ : MyCollection α) ⟨i⟩ = none ∧
    MyIterator.next (MyCollection.add_item ⟨l⟩ x) ⟨i⟩ = some (x, ⟨i + 1⟩) := by
  subst h
  constructor
  · rw [MyIterator.next]
    simp
  · rw [MyIterator.next]
    have hl : l.length < (MyCollection.add_item ⟨l⟩ x)._items.length := by
      simp [MyCollection.add_item]
    simp only [MyCollection.add_item, List.length_append, List.length_cons,
      List.length_nil, Nat.lt_add_one, dite_true, List.get_eq_getElem]
    rw [List.getElem_concat_length]
    rfl

theorem iterator_append_visible_witness :
    (0 = ([] : List String).length) ∧
    (MyIterator.next (⟨[]⟩ : MyCollection String) ⟨0⟩ = none ∧
      MyIterator.next (MyCollection.add_item ⟨([] : List String)⟩ "X") ⟨0⟩
        = some ("X", ⟨0 + 1⟩)) :=
  ⟨rfl, iterator_append_visible [] "X" 0 rfl⟩

/-- Claim C2: over an unmodified collection holding `l` (so `N =
l.length` appended items), a fresh cursor's successful productions are
exactly the first `fuel` items for any step budget — in particular with
budget `N` all `N` productions succeed and nothing more is produced —
and every `__next__` call made at an index `≥ N` (where the cursor sits
from the `(N+1)`-th call onward, `StopIteration` leaving the index
unchanged) signals exhaustion rather than returning a value. -/
theorem iterator_exhaustion {α : Type} (l : List α) :
    (∀ fuel : Nat,
      MyIterator.collect ⟨l⟩ (MyCollection.iter ⟨l⟩) fuel = l.take fuel) ∧
    (∀ j : Nat, l.length ≤ j →
      MyIterator.next (⟨l⟩ : MyCollection α) ⟨j⟩ = none) := by
  constructor
  · intro fuel
    have h := MyIterator.collect_eq_take_drop l fuel 0
    simpa [MyCollection.iter] using h
  · intro j hj
    rw [MyIterator.next]
    simp [Nat.not_lt.mpr hj]

theorem iterator_exhaustion_witness :
    (MyIterator.collect (⟨["Apple", "Banana", "Cherry"]⟩ : MyCollection String)
        (MyCollection.iter ⟨["Apple", "Banana", "Cherry"]⟩) 3
      = ["Apple", "Banana", "Cherry"].take 3) ∧
    (["Apple", "Banana", "Cherry"].length ≤ 4) ∧
    (MyIterator.next (⟨["Apple", "Banana", "Cherry"]⟩ : MyCollection String) ⟨4⟩
      = none) :=
  ⟨(iterator_exhaustion ["Apple", "Banana", "Cherry"]).1 3, by decide,
    (iterator_exhaustion ["Apple", "Banana", "Cherry"]).2 4 (by decide)⟩

/-- Claim C3: build a collection by appending the items of `l` in
order; a fresh cursor's run of successful productions is exactly `l`
(append order, duplicates preserved), and the production made at index
`i` — where the cursor sits after `i` successful productions, each call
advancing the index by one — returns the `i`-th appended item. -/
theorem iterator_append_order {α : Type} (l : List α) (i : Nat)
    (h : i < l.length) :
    MyIterator.collect (MyCollection.ofList l)
        (MyCollection.iter (MyCollection.ofList l)) l.length = l ∧
    MyIterator.next (MyCollection.ofList l) ⟨i⟩
      = some (l.get ⟨i, h⟩, ⟨i + 1⟩) := by
  rw [MyCollection.ofList_eq]
  constructor
  · have hc := MyIterator.collect_eq_take_drop l l.length 0
    simpa [MyCollection.iter] using hc
  · rw [MyIterator.next]
    simp [h]

theorem iterator_append_order_witness :
    (2 < ["Apple", "Banana", "Apple"].length) ∧
    (MyIterator.collect (MyCollection.ofList ["Apple", "Banana", "Apple"])
        (MyCollection.iter (MyCollection.ofList ["Apple", "Banana", "Apple"])) 3
      = ["Apple", "Banana", "Apple"] ∧
    MyIterator.next (MyCollection.ofList ["Apple", "Banana", "Apple"]) ⟨2⟩
      = some ("Apple", ⟨2 + 1⟩)) :=
  ⟨by decide,
    by
      have h := iterator_append_order ["Apple", "Banana", "Apple"] 2 (by decide)
      simpa using h⟩

/-- Claim C4: the `state` setter stores the new value — afterwards the
subject's state is exactly the value set and the subscriber list is
untouched — and synchronously produces one `update` call per currently
attached subscriber, in attachment order, each passing the new state:
the event list is exactly the observer list mapped to
(observer, new state). -/
theorem set_state_spec {O S : Type} (s : Subject O S) (v : S) :
    (Subject.set_state s v).1._state = some v ∧
    (Subject.set_state s v).1._observers = s._observers ∧
    (Subject.set_state s v).2 = s._observers.map (fun o => (o, some v)) := by
  refine ⟨rfl, rfl, ?_⟩
  simp [Subject.set_state, Subject.notifyEvents]

/-- Claim C5: if `o` is attached (exactly once), detaching it succeeds
and removes it; setting the state then notifies exactly the remaining
subscribers, each once with the new value, in a list that is a sublist
of the original one (original attachment order preserved), and no
event goes to the detached `o`. -/
theorem detach_then_set_state {O S : Type} [DecidableEq O] (s : Subject O S)
    (o : O) (v : S) (h : s._observers.count o = 1) :
    ∃ s2 : Subject O S,
      Subject.detach s o = some s2 ∧
      s2._observers = s._observers.erase o ∧
      s2._observers.Sublist s._observers ∧
      o ∉ s2._observers ∧
      (Subject.set_state s2 v).2 = s2._observers.map (fun x => (x, some v)) := by
  have hmem : o ∈ s._observers := by
    rw [← List.count_pos_iff, h]
    exact Nat.one_pos
  refine ⟨⟨s._observers.erase o, s._state⟩, ?_, rfl, List.erase_sublist o _, ?_, ?_⟩
  · simp [Subject.detach, removeFirst_eq, hmem]
  · rw [← List.count_eq_zero, List.count_erase_self, h]
  · simp [Subject.set_state, Subject.notifyEvents]

theorem detach_then_set_state_witness :
    ((⟨["S1", "S2", "S3"], none⟩ : Subject String Int)._observers.count "S2"
      = 1) ∧
    (∃ s2 : Subject String Int,
      Subject.detach (⟨["S1", "S2", "S3"], none⟩ : Subject String Int) "S2"
        = some s2 ∧
      s2._observers
        = (⟨["S1", "S2", "S3"], none⟩ :
            Subject String Int)._observers.erase "S2" ∧
      s2._observers.Sublist
        (⟨["S1", "S2", "S3"], none⟩ : Subject String Int)._observers ∧
      "S2" ∉ s2._observers ∧
      (Subject.set_state s2 (20 : Int)).2
        = s2._observers.map (fun x => (x, some (20 : Int)))) :=
  ⟨by decide,
    detach_then_set_state ⟨["S1", "S2", "S3"], none⟩ "S2" 20 (by decide)⟩

/-- Claim C6: detaching a subscriber that is not currently attached
fails (`list.remove` raises `ValueError`, modelled as `none`) rather
than being a no-op or returning any subject, so the caller's subject —
its subscriber list and its state — is left as it was. -/
theorem detach_missing_fails {O S : Type} [DecidableEq O] (s : Subject O S)
    (o : O) (h : o ∉ s._observers) :
    Subject.detach s o = none ∧ ∀ s2 : Subject O S, Subject.detach s o ≠ some s2 := by
  have hd : Subject.detach s o = none := by
    simp [Subject.detach, removeFirst_eq, h]
  exact ⟨hd, fun s2 hs2 => by rw [hd] at hs2; cases hs2⟩

theorem detach_missing_fails_witness :
    ("S2" ∉ (⟨["S1", "S3"], none⟩ : Subject String Int)._observers) ∧
    (Subject.detach (⟨["S1", "S3"], none⟩ : Subject String Int) "S2" = none ∧
      ∀ s2 : Subject String Int,
        Subject.detach (⟨["S1", "S3"], none⟩ : Subject String Int) "S2"
          ≠ some s2) :=
  ⟨by decide, detach_missing_fails ⟨["S1", "S3"], none⟩ "S2" (by decide)⟩

/-- Claim C10: `attach` never deduplicates — attaching the same
subscriber `k` times appends `k` registrations; a state change then
notifies that subscriber once per registration (its prior count plus
`k` events carry it); and, for `k ≥ 1`, `detach` succeeds and removes
exactly one registration, the first occurrence in the list. -/
theorem attach_duplicates {O S : Type} [DecidableEq O] [DecidableEq S]
    (s : Subject O S) (o : O) (k : Nat) (v : S) (hk : 1 ≤ k) :
    (Subject.attachN s o k)._observers = s._observers ++ List.replicate k o ∧
    ((Subject.set_state (Subject.attachN s o k) v).2.count (o, some v)
      = s._observers.count o + k) ∧
    (∃ s2 : Subject O S,
      Subject.detach (Subject.attachN s o k) o = some s2 ∧
      s2._observers = (Subject.attachN s o k)._observers.erase o ∧
      s2._observers.count o = s._observers.count o + k - 1) := by
  have hobs := Subject.attachN_observers s o k
  have hcount : (Subject.attachN s o k)._observers.count o
      = s._observers.count o + k := by
    rw [hobs, List.count_append, List.count_replicate_self]
  refine ⟨hobs, ?_, ?_⟩
  · have he : (Subject.set_state (Subject.attachN s o k) v).2
        = (Subject.attachN s o k)._observers.map (fun x => (x, some v)) := by
      simp [Subject.set_state, Subject.notifyEvents]
    rw [he, count_map_pair, hcount]
  · have hmem : o ∈ (Subject.attachN s o k)._observers := by
      rw [hobs]
      refine List.mem_append_right _ (List.mem_replicate.mpr ⟨?_, rfl⟩)
      omega
    refine ⟨⟨(Subject.attachN s o k)._observers.erase o,
        (Subject.attachN s o k)._state⟩, ?_, rfl, ?_⟩
    · simp [Subject.detach, removeFirst_eq, hmem]
    · rw [List.count_erase_self, hcount]

theorem attach_duplicates_witness :
    (1 ≤ 2) ∧
    ((Subject.attachN (⟨[], none⟩ : Subject String Int) "A" 2)._observers
        = (⟨[], none⟩ : Subject String Int)._observers
            ++ List.replicate 2 "A" ∧
      ((Subject.set_state (Subject.attachN (⟨[], none⟩ : Subject String Int)
            "A" 2) (5 : Int)).2.count ("A", some (5 : Int))
        = (⟨[], none⟩ : Subject String Int)._observers.count "A" + 2) ∧
      (∃ s2 : Subject String Int,
        Subject.detach
            (Subject.attachN (⟨[], none⟩ : Subject String Int) "A" 2) "A"
          = some s2 ∧
        s2._observers
          = (Subject.attachN (⟨[], none⟩ :
              Subject String Int) "A" 2)._observers.erase "A" ∧
        s2._observers.count "A"
          = (⟨[], none⟩ : Subject String Int)._observers.count "A" + 2 - 1)) :=
  ⟨by decide, attach_duplicates ⟨[], none⟩ "A" 2 5 (by decide)⟩

/-- Claim C7: on any well-formed heap, two construction requests return
the identical reference (the same address, hence the same single
instance), and incrementing through the first reference is visible
when reading `value` through the second. -/
theorem singleton_identity (s : PyHeap) (hwf : PyHeap.WF s) :
    (Singleton.new (Singleton.new s).2).1 = (Singleton.new s).1 ∧
    PyHeap.value
        (Singleton.increment (Singleton.new (Singleton.new s).2).2
          (Singleton.new s).1)
        (Singleton.new (Singleton.new s).2).1
      = PyHeap.value (Singleton.new (Singleton.new s).2).2
          (Singleton.new (Singleton.new s).2).1 + 1 := by
  have h2 : Singleton.new (Singleton.new s).2
      = ((Singleton.new s).1, (Singleton.new s).2) :=
    Singleton.new_of_some _ _ (Singleton.new_instance_eq s)
  rw [h2]
  refine ⟨rfl, ?_⟩
  have hlt := Singleton.new_addr_lt s hwf
  simp only [Singleton.increment, PyHeap.value]
  rw [List.getD_set_self _ _ _ _ hlt]

theorem singleton_identity_witness :
    PyHeap.WF ⟨[], none⟩ ∧
    ((Singleton.new (Singleton.new ⟨[], none⟩).2).1
        = (Singleton.new ⟨[], none⟩).1 ∧
      PyHeap.value
          (Singleton.increment (Singleton.new (Singleton.new ⟨[], none⟩).2).2
            (Singleton.new ⟨[], none⟩).1)
          (Singleton.new (Singleton.new ⟨[], none⟩).2).1
        = PyHeap.value (Singleton.new (Singleton.new ⟨[], none⟩).2).2
            (Singleton.new (Singleton.new ⟨[], none⟩).2).1 + 1) :=
  ⟨fun _ h => Option.noConfusion h,
    singleton_identity ⟨[], none⟩ (fun _ h => Option.noConfusion h)⟩

/-- Claim C9: the `value` field is set to 0 only when the first
construction allocates the instance; once the instance exists, a
further construction request returns the stored reference and leaves
the whole heap — in particular an incremented `value` — unchanged. -/
theorem singleton_no_reinit (s : PyHeap) (hwf : PyHeap.WF s) :
    (s._instance = none →
      PyHeap.value (Singleton.new s).2 (Singleton.new s).1 = 0) ∧
    (Singleton.new (Singleton.increment (Singleton.new s).2 (Singleton.new s).1)
      = ((Singleton.new s).1,
          Singleton.increment (Singleton.new s).2 (Singleton.new s).1)) ∧
    (PyHeap.value
        (Singleton.new
          (Singleton.increment (Singleton.new s).2 (Singleton.new s).1)).2
        (Singleton.new s).1
      = PyHeap.value (Singleton.new s).2 (Singleton.new s).1 + 1) := by
  have hinst := Singleton.new_instance_eq s
  have hlt := Singleton.new_addr_lt s hwf
  have hinc : (Singleton.increment (Singleton.new s).2
      (Singleton.new s).1)._instance = some (Singleton.new s).1 := hinst
  have hre := Singleton.new_of_some _ _ hinc
  refine ⟨?_, hre, ?_⟩
  · intro h0
    simp [Singleton.new, h0, PyHeap.value, List.getD_append_length]
  · rw [hre]
    simp only [Singleton.increment, PyHeap.value]
    rw [List.getD_set_self _ _ _ _ hlt]

theorem singleton_no_reinit_witness :
    PyHeap.WF ⟨[], none⟩ ∧
    (⟨[], none⟩ : PyHeap)._instance = none ∧
    PyHeap.value (Singleton.new ⟨[], none⟩).2 (Singleton.new ⟨[], none⟩).1
      = 0 ∧
    (Singleton.new (Singleton.increment (Singleton.new ⟨[], none⟩).2
        (Singleton.new ⟨[], none⟩).1)
      = ((Singleton.new ⟨[], none⟩).1,
          Singleton.increment (Singleton.new ⟨[], none⟩).2
            (Singleton.new ⟨[], none⟩).1)) ∧
    (PyHeap.value
        (Singleton.new
          (Singleton.increment (Singleton.new ⟨[], none⟩).2
            (Singleton.new ⟨[], none⟩).1)).2
        (Singleton.new ⟨[], none⟩).1
      = PyHeap.value (Singleton.new ⟨[], none⟩).2
          (Singleton.new ⟨[], none⟩).1 + 1) :=
  ⟨fun _ h => Option.noConfusion h, rfl,
    (singleton_no_reinit ⟨[], none⟩ (fun _ h => Option.noConfusion h)).1 rfl,
    (singleton_no_reinit ⟨[], none⟩ (fun _ h => Option.noConfusion h)).2.1,
    (singleton_no_reinit ⟨[], none⟩ (fun _ h => Option.noConfusion h)).2.2⟩

/-- Claim C8: stacking `greet` (before-print) outside `farewell`
(after-print) around any base runs outer-before (`"Hello!"`), then the
inner wrapper's effects around the base (the base's own output followed
by `"Goodbye!"`), then the outer after-effect (none), and returns the
base's return value unmodified; instantiated on the source's
`say_name("Alice")` and `add_numbers(5, 3)`. -/
theorem decorator_composition {α β : Type} (f : α → List String × β) (a : α) :
    greet (farewell f) a = ("Hello!" :: ((f a).1 ++ ["Goodbye!"]), (f a).2) ∧
    say_name "Alice" = (["Hello!", "My name is Alice.", "Goodbye!"], ()) ∧
    add_numbers (5, 3) = (["Hello!"], 8) := by
  exact ⟨rfl, rfl, rfl⟩

end DesignPatterns
